import Mathlib

/-!
Verification of the error-normalization subsystem of the monday-async
client library: the `ErrorInfo` aggregator, the exception hierarchy with
its `ERROR_CODES` dispatch table, and the transport-boundary raise.
Python values are embedded shallowly as `PyValue`; code that can raise
returns `Except PyErr`.
-/

namespace MondayAsync

/-- Shallow embedding of the Python values the error subsystem handles:
`None`, strings, integers, lists and string-keyed dicts. -/
inductive PyValue : Type where
  | none : PyValue
  | str : String → PyValue
  | int : Int → PyValue
  | list : List PyValue → PyValue
  | dict : List (String × PyValue) → PyValue

mutual

def pvDecEq : (a b : PyValue) → Decidable (a = b)
  | .none, .none => .isTrue rfl
  | .str a, .str b =>
    match decEq a b with
    | .isTrue h => .isTrue (by rw [h])
    | .isFalse h => .isFalse (by intro he; cases he; exact h rfl)
  | .int a, .int b =>
    match decEq a b with
    | .isTrue h => .isTrue (by rw [h])
    | .isFalse h => .isFalse (by intro he; cases he; exact h rfl)
  | .list xs, .list ys =>
    match plDecEq xs ys with
    | .isTrue h => .isTrue (by rw [h])
    | .isFalse h => .isFalse (by intro he; cases he; exact h rfl)
  | .dict xs, .dict ys =>
    match pfDecEq xs ys with
    | .isTrue h => .isTrue (by rw [h])
    | .isFalse h => .isFalse (by intro he; cases he; exact h rfl)
  | .none, .str _ => .isFalse (by intro h; cases h)
  | .none, .int _ => .isFalse (by intro h; cases h)
  | .none, .list _ => .isFalse (by intro h; cases h)
  | .none, .dict _ => .isFalse (by intro h; cases h)
  | .str _, .none => .isFalse (by intro h; cases h)
  | .str _, .int _ => .isFalse (by intro h; cases h)
  | .str _, .list _ => .isFalse (by intro h; cases h)
  | .str _, .dict _ => .isFalse (by intro h; cases h)
  | .int _, .none => .isFalse (by intro h; cases h)
  | .int _, .str _ => .isFalse (by intro h; cases h)
  | .int _, .list _ => .isFalse (by intro h; cases h)
  | .int _, .dict _ => .isFalse (by intro h; cases h)
  | .list _, .none => .isFalse (by intro h; cases h)
  | .list _, .str _ => .isFalse (by intro h; cases h)
  | .list _, .int _ => .isFalse (by intro h; cases h)
  | .list _, .dict _ => .isFalse (by intro h; cases h)
  | .dict _, .none => .isFalse (by intro h; cases h)
  | .dict _, .str _ => .isFalse (by intro h; cases h)
  | .dict _, .int _ => .isFalse (by intro h; cases h)
  | .dict _, .list _ => .isFalse (by intro h; cases h)

def plDecEq : (a b : List PyValue) → Decidable (a = b)
  | [], [] => .isTrue rfl
  | [], _ :: _ => .isFalse (by intro h; cases h)
  | _ :: _, [] => .isFalse (by intro h; cases h)
  | x :: xs, y :: ys =>
    match pvDecEq x y, plDecEq xs ys with
    | .isTrue h1, .isTrue h2 => .isTrue (by rw [h1, h2])
    | .isFalse h1, _ => .isFalse (by intro he; cases he; exact h1 rfl)
    | _, .isFalse h2 => .isFalse (by intro he; cases he; exact h2 rfl)

def pfDecEq : (a b : List (String × PyValue)) → Decidable (a = b)
  | [], [] => .isTrue rfl
  | [], _ :: _ => .isFalse (by intro h; cases h)
  | _ :: _, [] => .isFalse (by intro h; cases h)
  | (k, v) :: xs, (k', v') :: ys =>
    match decEq k k', pvDecEq v v', pfDecEq xs ys with
    | .isTrue h0, .isTrue h1, .isTrue h2 => .isTrue (by rw [h0, h1, h2])
    | .isFalse h0, _, _ => .isFalse (by intro he; cases he; exact h0 rfl)
    | _, .isFalse h1, _ => .isFalse (by intro he; cases he; exact h1 rfl)
    | _, _, .isFalse h2 => .isFalse (by intro he; cases he; exact h2 rfl)

end

instance : DecidableEq PyValue := pvDecEq

/-- Python runtime errors that the embedded code can raise. -/
inductive PyErr : Type where
  | typeError : PyErr
  | attributeError : PyErr
deriving DecidableEq

/-- Python truthiness of a `PyValue`. -/
def truthy : PyValue → Bool
  | .none => false
  | .str s => !s.isEmpty
  | .int n => n != 0
  | .list xs => !xs.isEmpty
  | .dict xs => !xs.isEmpty

/-- Whether the value is a Python `dict`. -/
def isDict : PyValue → Bool
  | .dict _ => true
  | _ => false

/-- Whether the value is a Python `str`. -/
def isStr : PyValue → Bool
  | .str _ => true
  | _ => false

/-- `key in value` for a dict value; `false` on non-dicts (callers guard
dict-ness before using it, mirroring `isinstance(response, dict) and ...`). -/
def hasKey (v : PyValue) (key : String) : Bool :=
  match v with
  | .dict xs => (xs.lookup key).isSome
  | _ => false

/-- Total `dict.get(key, default)`: the defaulted lookup on a dict, and the
default on any non-dict; used only where dict-ness is established. -/
def dget (v : PyValue) (key : String) (dflt : PyValue) : PyValue :=
  match v with
  | .dict xs => (xs.lookup key).getD dflt
  | _ => dflt

/-- Python iteration over a value: lists yield elements, strings yield
one-character strings, dicts yield their keys; other values raise. -/
def pyIter : PyValue → Except PyErr (List PyValue)
  | .list xs => .ok xs
  | .str s => .ok (s.data.map (fun c => .str (String.singleton c)))
  | .dict xs => .ok (xs.map (fun p => .str p.1))
  | _ => .error .typeError

mutual

/-- Python `repr` of a value; string quoting covers strings without quote
or escape characters, the only ones this subsystem renders. -/
def pyRepr : PyValue → String
  | .none => "None"
  | .int n => toString n
  | .str s => "'" ++ s ++ "'"
  | .list xs => "[" ++ pyReprList xs ++ "]"
  | .dict xs => "\x7b" ++ pyReprFields xs ++ "\x7d"

def pyReprList : List PyValue → String
  | [] => ""
  | [x] => pyRepr x
  | x :: y :: rest => pyRepr x ++ ", " ++ pyReprList (y :: rest)

def pyReprFields : List (String × PyValue) → String
  | [] => ""
  | [(k, v)] => "'" ++ k ++ "': " ++ pyRepr v
  | (k, v) :: y :: rest => "'" ++ k ++ "': " ++ pyRepr v ++ ", " ++ pyReprFields (y :: rest)

end

/-- Python `str()` as used by f-string interpolation. -/
def pyToString : PyValue → String
  | .str s => s
  | v => pyRepr v

/-- Python `str.split("\n")` on the character list: splitting at every
newline, keeping empty pieces, `[""]` for the empty string. -/
def split_newline_chars : List Char → List (List Char)
  | [] => [[]]
  | c :: rest =>
    let r := split_newline_chars rest
    if c = '\n' then [] :: r
    else
      match r with
      | [] => [[c]]
      | l :: ls => (c :: l) :: ls

/-- Python `str.split("\n")`. -/
def py_split_newline (s : String) : List String :=
  (split_newline_chars s.data).map String.mk

/-! ## The `ErrorInfo` aggregator (monday_async/exceptions.py) -/

/-- The dict built by `ErrorInfo.create_location`: the raw line and column
as sent by the server plus the three rendered context lines. -/
structure ErrorLocation : Type where
  line : PyValue
  column : PyValue
  prev_line : String
  error_line : String
  next_line : String
deriving DecidableEq

/-- One normalized server-reported error, as appended by
`ErrorInfo.add_error`. -/
structure ErrorRecord : Type where
  message : PyValue
  locations : List ErrorLocation
  error_code : PyValue
  status_code : PyValue
  error_data : PyValue
deriving DecidableEq

/-- The state of an `ErrorInfo` instance.  `query_by_lines` is
`graphql_parse(query).split("\n")`: the formatted query text is taken as
an input here, since `graphql_parse` delegates to the external
graphql-core library (`print_ast(parse(query))`). -/
structure ErrorInfo : Type where
  error_message : PyValue
  error_code : PyValue
  status_code : PyValue
  error_data : PyValue
  path : PyValue
  extensions : PyValue
  query_by_lines : List String
  errors : List ErrorRecord
  formatted_message : String
deriving DecidableEq

/-- `ErrorInfo.get_line`: the `"{line_number}) {line_text}"` display when
`1 <= line_number <= len(query_by_lines)`, and `""` otherwise. -/
def ErrorInfo.get_line (query_by_lines : List String) (line_number : Int) : String :=
  if 1 ≤ line_number ∧ line_number ≤ query_by_lines.length then
    toString line_number ++ ") " ++ query_by_lines.getD (line_number.toNat - 1) ""
  else ""

/-- `ErrorInfo.create_location`: `location.get` raises AttributeError on a
non-dict, and `line - 1` raises TypeError when `line` is not an integer. -/
def ErrorInfo.create_location (query_by_lines : List String) (location : PyValue) :
    Except PyErr ErrorLocation :=
  match location with
  | .dict _ =>
    let lineV := dget location "line" .none
    let columnV := dget location "column" .none
    match lineV with
    | .int line =>
      .ok ⟨lineV, columnV, ErrorInfo.get_line query_by_lines (line - 1),
           ErrorInfo.get_line query_by_lines line,
           ErrorInfo.get_line query_by_lines (line + 1)⟩
    | _ => .error .typeError
  | _ => .error .attributeError

/-- `ErrorInfo.add_error`: appends one record, keeping input order. -/
def ErrorInfo.add_error (self : ErrorInfo) (message error_code status_code : PyValue)
    (locations : List ErrorLocation) (error_data : PyValue) : ErrorInfo :=
  { self with errors := self.errors ++ [⟨message, locations, error_code, status_code, error_data⟩] }

/-- The list comprehension
`[self.create_location(location) for location in err.get('locations', [])]`:
locations are resolved in order, the first failure propagating. -/
def ErrorInfo.create_locations (query_by_lines : List String) :
    List PyValue → Except PyErr (List ErrorLocation)
  | [] => .ok []
  | l :: rest =>
    match ErrorInfo.create_location query_by_lines l with
    | .error e => .error e
    | .ok loc =>
      match ErrorInfo.create_locations query_by_lines rest with
      | .error e => .error e
      | .ok locs => .ok (loc :: locs)

/-- The body of the `for err in response.get('errors', [])` loop in
`ErrorInfo.process_errors`, for a single entry.  A plain string is added as
a bare message carrying the aggregate's current `error_code`/`status_code`;
a dict is unpacked (`err.get` on any other value raises AttributeError). -/
def ErrorInfo.process_entry (self : ErrorInfo) (err : PyValue) : Except PyErr ErrorInfo :=
  match err with
  | .str s => .ok (self.add_error (.str s) self.error_code self.status_code [] .none)
  | .dict _ =>
    let message := dget err "message" (.str "")
    match pyIter (dget err "locations" (.list [])) with
    | .error e => .error e
    | .ok locationItems =>
      match ErrorInfo.create_locations self.query_by_lines locationItems with
      | .error e => .error e
      | .ok locations =>
        match dget err "extensions" (.dict []) with
        | .dict exts =>
          let extensions := PyValue.dict exts
          let error_code := dget extensions "code" .none
          let status_code := dget extensions "status_code" .none
          let error_data := dget extensions "error_data" (.dict [])
          let path := dget err "path" (.list [])
          let s1 := self.add_error message error_code status_code locations error_data
          let s2 := if truthy s1.error_code then s1 else { s1 with error_code := error_code }
          if error_code = s2.error_code then
            .ok { s2 with extensions := extensions, path := path, error_data := error_data }
          else
            .ok s2
        -- `err.get('extensions', {}).get('code')` raises on non-dict extensions
        | _ => .error .attributeError
  | _ => .error .attributeError

/-- The `for` loop of `ErrorInfo.process_errors` over the decoded entries. -/
def ErrorInfo.process_list : ErrorInfo → List PyValue → Except PyErr ErrorInfo
  | self, [] => .ok self
  | self, e :: rest =>
    match self.process_entry e with
    | .error err => .error err
    | .ok s => s.process_list rest

/-- `ErrorInfo.process_errors`: iterates `response.get('errors', [])`. -/
def ErrorInfo.process_errors (self : ErrorInfo) (response : PyValue) : Except PyErr ErrorInfo :=
  match pyIter (dget response "errors" (.list [])) with
  | .error e => .error e
  | .ok entries => self.process_list entries

/-- `ErrorInfo.format_single_error`. -/
def ErrorInfo.format_single_error (message error_code status_code : PyValue) : String :=
  pyToString message ++ "\n"
  ++ (if truthy error_code then "Error Code: " ++ pyToString error_code ++ "\n" else "")
  ++ (if truthy status_code then "Status Code: " ++ pyToString status_code ++ "\n" else "")

/-- `ErrorInfo.format_location`.  The caret is computed first, so a
non-integer column raises TypeError (`location['column'] + 2`) before
anything is rendered; `' ' * n` is empty for negative `n`. -/
def ErrorInfo.format_location (location : ErrorLocation) : Except PyErr String :=
  match location.column with
  | .int c =>
    let caret_line := String.mk (List.replicate (c + 2).toNat ' ') ++ "^"
    .ok ("Location: Line " ++ pyToString location.line ++ ", Column "
          ++ pyToString location.column ++ "\n"
        ++ (if location.error_line ≠ "" then
              (if location.prev_line ≠ "" then "       " ++ location.prev_line ++ "\n" else "")
              ++ "       " ++ location.error_line ++ "\n"
              ++ "       " ++ caret_line ++ "\n"
              ++ (if location.next_line ≠ "" then "       " ++ location.next_line ++ "\n" else "")
            else ""))
  | _ => .error .typeError

/-- The `for location in error['locations']` rendering loop: the formatted
location blocks concatenated in order, the first failure propagating. -/
def ErrorInfo.format_locations : List ErrorLocation → Except PyErr String
  | [] => .ok ""
  | l :: rest =>
    match ErrorInfo.format_location l with
    | .error e => .error e
    | .ok s1 =>
      match ErrorInfo.format_locations rest with
      | .error e => .error e
      | .ok s2 => .ok (s1 ++ s2)

/-- `ErrorInfo.format_error_details`: one record's message, its rendered
locations in order, then its own code/status when truthy. -/
def ErrorInfo.format_error_details (error : ErrorRecord) : Except PyErr String :=
  match ErrorInfo.format_locations error.locations with
  | .error e => .error e
  | .ok locs =>
    .ok (pyToString error.message ++ "\n" ++ locs
      ++ (if truthy error.error_code then "Error Code: " ++ pyToString error.error_code ++ "\n" else "")
      ++ (if truthy error.status_code then "Status Code: " ++ pyToString error.status_code ++ "\n" else ""))

/-- The per-record loop of `format_multiple_errors`: blank line, message,
rendered locations, then the record's own code/status lines, rendered
unconditionally. -/
def ErrorInfo.format_multiple_body : List ErrorRecord → Except PyErr String
  | [] => .ok ""
  | error :: rest =>
    match ErrorInfo.format_locations error.locations with
    | .error e => .error e
    | .ok locs =>
      match ErrorInfo.format_multiple_body rest with
      | .error e => .error e
      | .ok tail =>
        .ok ("\n" ++ pyToString error.message ++ "\n" ++ locs
          ++ " - Error Code: " ++ pyToString error.error_code ++ "\n"
          ++ " - Status Code: " ++ pyToString error.status_code ++ "\n" ++ tail)

/-- `ErrorInfo.format_multiple_errors`: header, then each record. -/
def ErrorInfo.format_multiple_errors (errors : List ErrorRecord) : Except PyErr String :=
  match ErrorInfo.format_multiple_body errors with
  | .error e => .error e
  | .ok parts => .ok ("\nMultiple errors occurred:\n" ++ parts)

/-- `ErrorInfo.format_errors`: zero / one / many rendering shapes. -/
def ErrorInfo.format_errors (self : ErrorInfo) : Except PyErr String :=
  match self.errors with
  | [] => .ok (ErrorInfo.format_single_error self.error_message self.error_code self.status_code)
  | [e] => ErrorInfo.format_error_details e
  | _ => ErrorInfo.format_multiple_errors self.errors

/-- `ErrorInfo.__init__`: the top-level fields come from `response.get`
(AttributeError on a non-mapping response), then `process_errors` and
`format_errors` run.  `formatted_query` stands for the output of
`graphql_parse(query)` (external graphql-core pretty-printer). -/
def ErrorInfo.init (response : PyValue) (formatted_query : String) : Except PyErr ErrorInfo :=
  match response with
  | .dict _ =>
    let st0 : ErrorInfo :=
      { error_message := dget response "error_message" (.str "An error occurred")
        error_code := dget response "error_code" .none
        status_code := dget response "status_code" .none
        error_data := dget response "error_data" (.dict [])
        path := .none
        extensions := .none
        query_by_lines := py_split_newline formatted_query
        errors := []
        formatted_message := "" }
    match st0.process_errors response with
    | .error e => .error e
    | .ok st1 =>
      match st1.format_errors with
      | .error e => .error e
      | .ok fm => .ok { st1 with formatted_message := fm }
  | _ => .error .attributeError

/-! ## The exception hierarchy and the `ERROR_CODES` dispatch table -/

/-- The exception classes of monday_async/exceptions.py: the base
`MondayAPIError`, its deprecated alias, and the leaf kinds. -/
inductive ExcKind : Type where
  | MondayAPIError : ExcKind
  | MondayQueryError : ExcKind
  | GraphQLValidationError : ExcKind
  | InternalServerError : ExcKind
  | ConcurrencyLimitExceededError : ExcKind
  | FieldLimitExceededError : ExcKind
  | RateLimitExceededError : ExcKind
  | IpRestrictedError : ExcKind
  | UnauthorizedError : ExcKind
  | BadRequestError : ExcKind
  | MissingRequiredPermissionsError : ExcKind
  | ParseError : ExcKind
  | ColumnValueError : ExcKind
  | ComplexityError : ExcKind
  | MaxComplexityExceededError : ExcKind
  | CorrectedValueError : ExcKind
  | CreateBoardError : ExcKind
  | DeleteLastGroupError : ExcKind
  | InvalidArgumentError : ExcKind
  | InvalidItemIdError : ExcKind
  | InvalidBoardIdError : ExcKind
  | InvalidColumnIdError : ExcKind
  | InvalidUserIdError : ExcKind
  | InvalidVersionError : ExcKind
  | ItemNameTooLongError : ExcKind
  | ItemsLimitationError : ExcKind
  | JsonParseError : ExcKind
  | RecordValidError : ExcKind
  | ResourceNotFoundError : ExcKind
  | UserUnauthorizedError : ExcKind
deriving DecidableEq

/-- A constructed exception: the kind plus the attributes set by
`MondayAPIError.__init__`. -/
structure MondayAPIErrorState : Type where
  kind : ExcKind
  message : PyValue
  error_code : PyValue
  status_code : PyValue
  error_data : PyValue
  extensions : PyValue
  path : PyValue
deriving DecidableEq

/-- `MondayAPIError.__init__`: `error_data`/`extensions`/`path` become `{}`
when `None`, while `error_code`/`status_code` are stored as given. -/
def MondayAPIError.init (kind : ExcKind) (message error_code status_code error_data
    extensions path : PyValue) : MondayAPIErrorState :=
  { kind := kind
    message := message
    error_code := error_code
    status_code := status_code
    error_data := if error_data = .none then .dict [] else error_data
    extensions := if extensions = .none then .dict [] else extensions
    path := if path = .none then .dict [] else path }

/-- The default `message` of each leaf `__init__`; the base class and its
deprecated alias have no default (callers always pass a message to them). -/
def leaf_default_message : ExcKind → String
  | .MondayAPIError => ""
  | .MondayQueryError => ""
  | .GraphQLValidationError => "GraphQL query is invalid"
  | .InternalServerError => "Internal server error occurred"
  | .ConcurrencyLimitExceededError => "Concurrency limit exceeded"
  | .FieldLimitExceededError => "Field limit exceeded"
  | .RateLimitExceededError => "Rate limit exceeded"
  | .IpRestrictedError => "Your IP is restricted"
  | .UnauthorizedError => "Unauthorized access"
  | .BadRequestError => "Bad request"
  | .MissingRequiredPermissionsError => "Missing required permissions"
  | .ParseError => "Parse error in the query"
  | .ColumnValueError => "Column value formatting error"
  | .ComplexityError => "Complexity limit exceeded"
  | .MaxComplexityExceededError => "Max complexity exceeded"
  | .CorrectedValueError => "Incorrect value type"
  | .CreateBoardError => "Error creating board"
  | .DeleteLastGroupError => "Cannot delete the last group on the board"
  | .InvalidArgumentError => "Invalid argument in the query"
  | .InvalidItemIdError => "Invalid item ID"
  | .InvalidBoardIdError => "Invalid board ID"
  | .InvalidColumnIdError => "Invalid column ID"
  | .InvalidUserIdError => "Invalid user ID"
  | .InvalidVersionError => "Invalid API version"
  | .ItemNameTooLongError => "Item name exceeds the allowed character limit"
  | .ItemsLimitationError => "Exceeded the limit of items on the board"
  | .JsonParseError => "JSON parse error"
  | .RecordValidError => "Record validation error"
  | .ResourceNotFoundError => "Resource not found"
  | .UserUnauthorizedError => "User unauthorized"

/-- Construction of any exception of the hierarchy: every leaf `__init__`
defaults its message and delegates to `MondayAPIError.__init__`;
`DeleteLastGroupError.__init__` takes no `extensions`/`path` parameters and
forwards only the first four arguments. -/
def leaf_init (kind : ExcKind) (message : Option PyValue)
    (error_code status_code error_data extensions path : PyValue) : MondayAPIErrorState :=
  let msg := message.getD (.str (leaf_default_message kind))
  match kind with
  | .DeleteLastGroupError =>
    MondayAPIError.init kind msg error_code status_code error_data .none .none
  | _ => MondayAPIError.init kind msg error_code status_code error_data extensions path

/-! ### `ComplexityError.__init__` message parsing -/

/-- Strip a literal character sequence off the front, or fail. -/
def strip_lit : List Char → List Char → Option (List Char)
  | [], cs => some cs
  | _ :: _, [] => Option.none
  | l :: ls, c :: cs => if c = l then strip_lit ls cs else Option.none

/-- `int()` of a nonempty digit run. -/
def digits_to_nat (ds : List Char) : Nat :=
  ds.foldl (fun n c => 10 * n + (c.toNat - '0'.toNat)) 0

/-- Match the compiled pattern
`budget remaining (\d+) out of \d+ reset in (\d+) seconds` anchored at the
start of `cs`, returning the two captured integers.  Each `\d+` is a
maximal digit run; since every following literal starts with a non-digit,
maximal munch coincides with the regex's greedy backtracking semantics. -/
def match_at (cs : List Char) : Option (Nat × Nat) :=
  match strip_lit "budget remaining ".data cs with
  | Option.none => Option.none
  | some cs1 =>
    let p1 := cs1.span Char.isDigit
    if p1.1 = ([] : List Char) then Option.none else
    match strip_lit " out of ".data p1.2 with
    | Option.none => Option.none
    | some cs2 =>
      let p2 := cs2.span Char.isDigit
      if p2.1 = ([] : List Char) then Option.none else
      match strip_lit " reset in ".data p2.2 with
      | Option.none => Option.none
      | some cs3 =>
        let p3 := cs3.span Char.isDigit
        if p3.1 = ([] : List Char) then Option.none else
        match strip_lit " seconds".data p3.2 with
        | Option.none => Option.none
        | some _ => some (digits_to_nat p1.1, digits_to_nat p3.1)

/-- `re.search` of the fixed pattern: the match at the leftmost starting
position where the whole pattern matches, if any. -/
def re_search : List Char → Option (Nat × Nat)
  | [] => Option.none
  | c :: rest =>
    match match_at (c :: rest) with
    | some r => some r
    | Option.none => re_search rest

/-- A constructed `ComplexityError`: the base attributes plus the two
fields derived from the message. -/
structure ComplexityErrorState : Type where
  base : MondayAPIErrorState
  remaining_complexity : Option Nat
  reset_in : Option Nat
deriving DecidableEq

/-- `ComplexityError.__init__`: `re.search` of the fixed pattern against
the message; on a match the two captured integers are stored, otherwise
both derived fields are `None`, and construction always succeeds. -/
def ComplexityError.init (message : String) (error_code status_code error_data
    extensions path : PyValue) : ComplexityErrorState :=
  let parsed := re_search message.data
  { base := MondayAPIError.init .ComplexityError (.str message) error_code status_code
      error_data extensions path
    remaining_complexity := parsed.map Prod.fst
    reset_in := parsed.map Prod.snd }

/-! ### The dispatch table -/

/-- The module-level `ERROR_CODES` mapping of monday_async/exceptions.py. -/
def ERROR_CODES : List (String × ExcKind) :=
  [("INTERNAL_SERVER_ERROR", .InternalServerError),
   ("GRAPHQL_VALIDATION_FAILED", .GraphQLValidationError),
   ("MaxConcurrencyExceeded", .ConcurrencyLimitExceededError),
   ("RateLimitExceeded", .RateLimitExceededError),
   ("IpRestricted", .IpRestrictedError),
   ("Unauthorized", .UnauthorizedError),
   ("BadRequest", .BadRequestError),
   ("missingRequiredPermissions", .MissingRequiredPermissionsError),
   ("ParseError", .ParseError),
   ("ColumnValueException", .ColumnValueError),
   ("ComplexityException", .ComplexityError),
   ("maxComplexityExceeded", .MaxComplexityExceededError),
   ("CorrectedValueException", .CorrectedValueError),
   ("CreateBoardException", .CreateBoardError),
   ("DeleteLastGroupException", .DeleteLastGroupError),
   ("FIELD_LIMIT_EXCEEDED", .FieldLimitExceededError),
   ("InvalidArgumentException", .InvalidArgumentError),
   ("InvalidItemIdException", .InvalidItemIdError),
   ("InvalidBoardIdException", .InvalidBoardIdError),
   ("InvalidColumnIdException", .InvalidColumnIdError),
   ("InvalidUserIdException", .InvalidUserIdError),
   ("InvalidVersionException", .InvalidVersionError),
   ("ItemNameTooLongException", .ItemNameTooLongError),
   ("ItemsLimitationException", .ItemsLimitationError),
   ("JsonParseException", .JsonParseError),
   ("RecordValidException", .RecordValidError),
   ("ResourceNotFoundException", .ResourceNotFoundError),
   ("UserUnauthorizedException", .UserUnauthorizedError)]

/-- Modelled from the spec: `resolve(code)` of §4.4, i.e.
`ERROR_CODES.get(code, MondayAPIError)` as used by the current
transport-layer raise, which is missing from src/ — the table itself is
the src `ERROR_CODES` above.  A string code is looked up, any other or
absent code resolves to the generic base kind. -/
def error_codes_get : PyValue → ExcKind
  | .str s => (ERROR_CODES.lookup s).getD .MondayAPIError
  | _ => .MondayAPIError

/-! ### Transport boundary (§4.5) -/

/-- The outcome of `_throw_on_error`: no raise, a raised monday.com
exception, or a propagated Python-level error from aggregation itself. -/
inductive ThrowOutcome : Type where
  | ok : ThrowOutcome
  | raised : MondayAPIErrorState → ThrowOutcome
  | pyError : PyErr → ThrowOutcome
deriving DecidableEq

/-- Modelled from the spec: the current `AsyncGraphQLClient._throw_on_error`
is missing from src/ (the file there holds a superseded variant that
predates `ErrorInfo`); per §4.3/§4.5 and the expectations of
monday_async/tests/test_graphqlclient.py, a mapping response carrying any
of `errors`/`error_message`/`error_code` is aggregated by `ErrorInfo`, and
when the aggregate has at least one record or a truthy top-level message,
exactly one exception is raised whose class is the `ERROR_CODES` entry for
the primary code and whose constructor receives the formatted message and
the aggregated code, status, error_data, extensions and path. -/
def throw_on_error (response : PyValue) (formatted_query : String) : ThrowOutcome :=
  if isDict response
      && (hasKey response "errors" || hasKey response "error_message"
          || hasKey response "error_code") then
    match ErrorInfo.init response formatted_query with
    | .error e => .pyError e
    | .ok info =>
      if !info.errors.isEmpty || truthy info.error_message then
        .raised (leaf_init (error_codes_get info.error_code)
          (some (.str info.formatted_message)) info.error_code info.status_code
          info.error_data info.extensions info.path)
      else .ok
  else .ok

/-- The transport returns the decoded response unchanged when
`_throw_on_error` does not raise (`_send` in graphqlclient.py). -/
def send_result (response : PyValue) (formatted_query : String) : Option PyValue :=
  match throw_on_error response formatted_query with
  | .ok => some response
  | _ => Option.none

/-! ## Spec-side characterizations

Total functions phrased after the spec's vocabulary, used to state what
`process_errors` computes; each is compared against the source embedding
by a theorem, never used inside it. -/

/-- The `extensions.code` an entry contributes: nothing for a plain
string, the (defaulted) nested lookup otherwise. -/
def entry_code_spec : PyValue → PyValue
  | .str _ => .none
  | e => dget (dget e "extensions" (.dict [])) "code" .none

/-- The `extensions` value attributed to an entry. -/
def entry_ext_spec : PyValue → PyValue :=
  fun e => dget e "extensions" (.dict [])

/-- The `path` value attributed to an entry. -/
def entry_path_spec : PyValue → PyValue :=
  fun e => dget e "path" (.list [])

/-- The `extensions.error_data` value attributed to an entry. -/
def entry_data_spec : PyValue → PyValue :=
  fun e => dget (dget e "extensions" (.dict [])) "error_data" (.dict [])

/-- The code of the first entry carrying a truthy `extensions.code`. -/
def first_code_spec (entries : List PyValue) : Option PyValue :=
  entries.findSome? (fun e =>
    if truthy (entry_code_spec e) then some (entry_code_spec e) else Option.none)

/-- The last non-string entry whose `extensions.code` equals `code`. -/
def last_match_spec (entries : List PyValue) (code : PyValue) : Option PyValue :=
  match entries with
  | [] => Option.none
  | e :: rest =>
    match last_match_spec rest code with
    | some x => some x
    | Option.none =>
      if isStr e = false ∧ entry_code_spec e = code then some e else Option.none

/-- How one entry transforms the aggregate's `error_code`. -/
def code_step (code : PyValue) (e : PyValue) : PyValue :=
  if isStr e then code
  else if truthy code then code
  else entry_code_spec e

/-- The aggregate's `error_code` after a prefix of entries. -/
def code_after_spec (code : PyValue) (entries : List PyValue) : PyValue :=
  entries.foldl code_step code

/-- The list the `errors` value of a response decodes to; total counterpart
of `pyIter (dget response "errors" (.list []))`, agreeing with it whenever
the latter succeeds. -/
def entries_spec (response : PyValue) : List PyValue :=
  match dget response "errors" (.list []) with
  | .list xs => xs
  | .str s => s.data.map (fun c => .str (String.singleton c))
  | .dict xs => xs.map (fun p => .str p.1)
  | _ => []

/-! ## Well-formedness: the payload shapes aggregation tolerates -/

/-- A location entry that aggregation survives: a mapping carrying an
integer `line` and an integer `column`. -/
def wf_location (l : PyValue) : Bool :=
  match l with
  | .dict _ =>
    (match dget l "line" .none with | .int _ => true | _ => false)
    && (match dget l "column" .none with | .int _ => true | _ => false)
  | _ => false

/-- An errors entry that aggregation survives: a plain string, or a mapping
whose `locations` (when present) is a list of well-formed locations and
whose `extensions` (when present) is a mapping. -/
def wf_entry (e : PyValue) : Bool :=
  match e with
  | .str _ => true
  | .dict _ =>
    (match dget e "locations" (.list []) with
     | .list ls => ls.all wf_location
     | _ => false)
    && (match dget e "extensions" (.dict []) with
        | .dict _ => true
        | _ => false)
  | _ => false

/-- A response whose aggregation never raises: a mapping whose `errors`
value (when present) is a list of well-formed entries. -/
def wf_response (r : PyValue) : Bool :=
  match r with
  | .dict _ =>
    (match dget r "errors" (.list []) with
     | .list es => es.all wf_entry
     | _ => false)
  | _ => false

/-- Every stored location of a record has an integer column (what the
formatting stage needs in order not to raise). -/
def rec_cols_ok (r : ErrorRecord) : Bool :=
  r.locations.all (fun l => match l.column with | .int _ => true | _ => false)

/-! ## Invariants of entry processing -/

/-- What one successful `process_entry` step does to the aggregate: the
message, status and query lines are untouched, the code advances by
`code_step`, exactly one record is appended, and the structured fields are
either untouched (string entry, or code mismatch) or replaced wholesale by
the entry's own extensions/path/error_data (the comparison being against
the code state *after* the potential assignment). -/
theorem process_entry_ok_char {s s₂ : ErrorInfo} {e : PyValue}
    (h : s.process_entry e = .ok s₂) :
    s₂.error_message = s.error_message ∧
    s₂.status_code = s.status_code ∧
    s₂.query_by_lines = s.query_by_lines ∧
    s₂.error_code = code_step s.error_code e ∧
    (∃ rec, s₂.errors = s.errors ++ [rec]) ∧
    ((isStr e = true ∧ s₂.extensions = s.extensions ∧ s₂.path = s.path ∧
        s₂.error_data = s.error_data)
     ∨ (isStr e = false ∧
        (if entry_code_spec e = s₂.error_code
         then s₂.extensions = entry_ext_spec e ∧ s₂.path = entry_path_spec e ∧
              s₂.error_data = entry_data_spec e
         else s₂.extensions = s.extensions ∧ s₂.path = s.path ∧
              s₂.error_data = s.error_data))) := by
  cases e with
  | str str =>
    simp only [ErrorInfo.process_entry, Except.ok.injEq] at h
    subst h
    simp [ErrorInfo.add_error, code_step, isStr]
  | dict fields =>
    simp only [ErrorInfo.process_entry] at h
    cases hIter : pyIter (dget (PyValue.dict fields) "locations" (PyValue.list [])) with
    | error e1 => simp [hIter] at h
    | ok locItems =>
      simp only [hIter] at h
      cases hMap : ErrorInfo.create_locations s.query_by_lines locItems with
      | error e2 => simp [hMap] at h
      | ok locs =>
        simp only [hMap] at h
        cases hE : dget (PyValue.dict fields) "extensions" (PyValue.dict []) with
        | dict exts =>
          simp only [hE] at h
          simp only [ErrorInfo.add_error] at h
          by_cases ht : truthy s.error_code
          · simp only [ht, if_true] at h
            by_cases hc : dget (PyValue.dict exts) "code" PyValue.none = s.error_code
            · rw [if_pos hc] at h
              simp only [Except.ok.injEq] at h
              subst h
              refine ⟨rfl, rfl, rfl, ?_, ⟨_, rfl⟩, Or.inr ⟨rfl, ?_⟩⟩
              · simp [code_step, isStr, ht]
              · rw [if_pos (by simp only [entry_code_spec, hE]; exact hc)]
                exact ⟨by simp [entry_ext_spec, hE], by simp [entry_path_spec],
                       by simp [entry_data_spec, hE]⟩
            · rw [if_neg hc] at h
              simp only [Except.ok.injEq] at h
              subst h
              refine ⟨rfl, rfl, rfl, ?_, ⟨_, rfl⟩, Or.inr ⟨rfl, ?_⟩⟩
              · simp [code_step, isStr, ht]
              · rw [if_neg (by simp only [entry_code_spec, hE]; exact hc)]
                exact ⟨rfl, rfl, rfl⟩
          · simp only [ht, Bool.false_eq_true, if_false] at h
            simp only [if_true] at h
            simp only [Except.ok.injEq] at h
            subst h
            refine ⟨rfl, rfl, rfl, ?_, ⟨_, rfl⟩, Or.inr ⟨rfl, ?_⟩⟩
            · simp [code_step, isStr, ht, entry_code_spec, hE]
            · rw [if_pos (by simp only [entry_code_spec, hE])]
              exact ⟨by simp [entry_ext_spec, hE], by simp [entry_path_spec],
                     by simp [entry_data_spec, hE]⟩
        | none => simp [hE] at h
        | str s2 => simp [hE] at h
        | int n => simp [hE] at h
        | list xs => simp [hE] at h
  | none => exact absurd h (by simp [ErrorInfo.process_entry])
  | int n => exact absurd h (by simp [ErrorInfo.process_entry])
  | list xs => exact absurd h (by simp [ErrorInfo.process_entry])

/-- A string entry appends a record carrying the aggregate's current
code and status, and changes nothing else. -/
theorem process_entry_str {s s₂ : ErrorInfo} {str : String}
    (h : s.process_entry (.str str) = .ok s₂) :
    s₂ = s.add_error (.str str) s.error_code s.status_code [] .none := by
  simpa [ErrorInfo.process_entry] using h.symm

/-- `code_after_spec` on a cons. -/
theorem code_after_cons {code e : PyValue} {rest : List PyValue} :
    code_after_spec code (e :: rest) = code_after_spec (code_step code e) rest := rfl

/-- String entries contribute no code. -/
theorem entry_code_of_isStr {e : PyValue} (h : isStr e = true) :
    entry_code_spec e = .none := by
  cases e <;> first
  | rfl
  | simp [isStr] at h

/-- A truthy aggregate code is never overwritten. -/
theorem code_after_truthy : ∀ {entries : List PyValue} {code : PyValue},
    truthy code = true → code_after_spec code entries = code
  | [], _, _ => rfl
  | e :: rest, code, h => by
    have hstep : code_step code e = code := by
      unfold code_step
      by_cases h1 : isStr e = true
      · rw [if_pos h1]
      · rw [if_neg h1, if_pos h]
    rw [code_after_cons, hstep]
    exact code_after_truthy h

/-- Starting from a falsy code, the aggregate ends up with the code of the
first entry that carries a truthy one. -/
theorem code_after_of_first : ∀ {entries : List PyValue} {code c : PyValue},
    truthy code = false → first_code_spec entries = some c →
    code_after_spec code entries = c
  | [], _, _, _, h => by simp [first_code_spec] at h
  | e :: rest, code, c, hf, h => by
    by_cases htc : truthy (entry_code_spec e) = true
    · have hc : entry_code_spec e = c := by
        simpa [first_code_spec, List.findSome?_cons, htc] using h
      have hns : isStr e = false := by
        by_contra hs
        rw [entry_code_of_isStr (by simpa using hs)] at htc
        simp [truthy] at htc
      have hstep : code_step code e = entry_code_spec e := by
        unfold code_step
        rw [if_neg (by simp [hns]), if_neg (by simp [hf])]
      rw [code_after_cons, hstep, code_after_truthy htc, hc]
    · have hrest : first_code_spec rest = some c := by
        simpa [first_code_spec, List.findSome?_cons,
               eq_false_of_ne_true htc] using h
      have hstep : truthy (code_step code e) = false := by
        unfold code_step
        split_ifs
        · exact hf
        · exact hf
        · exact eq_false_of_ne_true htc
      rw [code_after_cons]
      exact code_after_of_first hstep hrest

/-- What a successful `process_list` run does to the aggregate: message,
status and query lines are preserved, the code is folded by `code_step`,
and records are only appended. -/
theorem process_list_char : ∀ {entries : List PyValue} {s s' : ErrorInfo},
    s.process_list entries = .ok s' →
    s'.error_message = s.error_message ∧ s'.status_code = s.status_code ∧
    s'.query_by_lines = s.query_by_lines ∧
    s'.error_code = code_after_spec s.error_code entries ∧
    ∃ tail, s'.errors = s.errors ++ tail
  | [], s, s', h => by
    simp only [ErrorInfo.process_list, Except.ok.injEq] at h
    subst h
    exact ⟨rfl, rfl, rfl, rfl, [], by simp⟩
  | e :: rest, s, s', h => by
    simp only [ErrorInfo.process_list] at h
    cases hpe : s.process_entry e with
    | error err => rw [hpe] at h; cases h
    | ok s₂ =>
      rw [hpe] at h
      obtain ⟨hm, hs, hq, hc, ⟨rec, herr⟩, -⟩ := process_entry_ok_char hpe
      obtain ⟨im, is2, iq, ic, tail, ierr⟩ := process_list_char h
      refine ⟨im.trans hm, is2.trans hs, iq.trans hq, ?_, ?_⟩
      · rw [ic, hc, code_after_cons]
      · exact ⟨rec :: tail, by rw [ierr, herr]; simp⟩

/-- Which entry's structured fields the aggregate ends up carrying: those
of the last non-string entry whose `extensions.code` equals the final
aggregate code; when no entry matches, the fields and the code are
untouched. -/
theorem process_list_fields : ∀ {entries : List PyValue} {s s' : ErrorInfo},
    s.process_list entries = .ok s' →
    (∃ e, last_match_spec entries s'.error_code = some e ∧
       s'.extensions = entry_ext_spec e ∧ s'.path = entry_path_spec e ∧
       s'.error_data = entry_data_spec e)
    ∨ (last_match_spec entries s'.error_code = Option.none ∧
       s'.extensions = s.extensions ∧ s'.path = s.path ∧
       s'.error_data = s.error_data ∧ s'.error_code = s.error_code)
  | [], s, s', h => by
    simp only [ErrorInfo.process_list, Except.ok.injEq] at h
    subst h
    exact Or.inr ⟨rfl, rfl, rfl, rfl, rfl⟩
  | e :: rest, s, s', h => by
    simp only [ErrorInfo.process_list] at h
    cases hpe : s.process_entry e with
    | error err => rw [hpe] at h; cases h
    | ok s₂ =>
      rw [hpe] at h
      obtain ⟨hm, hs, hq, hc, ⟨rec, herr⟩, hfields⟩ := process_entry_ok_char hpe
      cases process_list_fields h with
      | inl hx =>
        obtain ⟨x, hx1, hx2, hx3, hx4⟩ := hx
        exact Or.inl ⟨x, by simp only [last_match_spec, hx1], hx2, hx3, hx4⟩
      | inr hn =>
        obtain ⟨hnone, hext2, hpath2, hdata2, hcode2⟩ := hn
        cases hfields with
        | inl hstr =>
          obtain ⟨hse, hext, hpath, hdata⟩ := hstr
          refine Or.inr ⟨?_, hext2.trans hext, hpath2.trans hpath, hdata2.trans hdata, ?_⟩
          · simp only [last_match_spec, hnone, hse]
            simp
          · rw [hcode2, hc]
            unfold code_step
            rw [if_pos hse]
        | inr hdict =>
          obtain ⟨hns, hif⟩ := hdict
          by_cases hcnd : entry_code_spec e = s₂.error_code
          · rw [if_pos hcnd] at hif
            obtain ⟨hext, hpath, hdata⟩ := hif
            refine Or.inl ⟨e, ?_, hext2.trans hext, hpath2.trans hpath, hdata2.trans hdata⟩
            simp only [last_match_spec, hnone]
            rw [if_pos ⟨hns, hcnd.trans hcode2.symm⟩]
          · rw [if_neg hcnd] at hif
            obtain ⟨hext, hpath, hdata⟩ := hif
            have ht : truthy s.error_code = true := by
              by_contra hf
              refine hcnd ?_
              rw [hc]
              unfold code_step
              rw [if_neg (by simp [hns]), if_neg (by simp [eq_false_of_ne_true hf])]
            have hpres : s₂.error_code = s.error_code := by
              rw [hc]
              unfold code_step
              rw [if_neg (by simp [hns]), if_pos ht]
            refine Or.inr ⟨?_, hext2.trans hext, hpath2.trans hpath, hdata2.trans hdata,
              hcode2.trans hpres⟩
            simp only [last_match_spec, hnone]
            rw [if_neg (by rintro ⟨-, hcc⟩; exact hcnd (hcc.trans hcode2))]

/-- Each plain-string entry yields, at its position, a record carrying the
string, no locations, no error data, and the aggregate's code/status at
the moment it was processed. -/
theorem process_list_str_records : ∀ {entries : List PyValue} {s s' : ErrorInfo},
    s.process_list entries = .ok s' →
    ∀ (i : Nat) (str : String), entries[i]? = some (.str str) →
    s'.errors[s.errors.length + i]? =
      some ⟨.str str, [], code_after_spec s.error_code (entries.take i),
            s.status_code, .none⟩
  | [], s, s', h => by
    intro i str hi
    simp at hi
  | e :: rest, s, s', h => by
    intro i str hi
    simp only [ErrorInfo.process_list] at h
    cases hpe : s.process_entry e with
    | error err => rw [hpe] at h; cases h
    | ok s₂ =>
      rw [hpe] at h
      obtain ⟨hm, hs, hq, hc, ⟨rec, herr⟩, -⟩ := process_entry_ok_char hpe
      cases i with
      | zero =>
        have he : e = .str str := by simpa using hi
        subst he
        have hrec : s₂ = s.add_error (.str str) s.error_code s.status_code [] .none :=
          process_entry_str hpe
        obtain ⟨-, -, -, -, tail, ierr⟩ := process_list_char h
        rw [ierr, hrec]
        simp only [ErrorInfo.add_error]
        rw [List.append_assoc, List.getElem?_append_right (Nat.le_add_right _ _)]
        simp [code_after_spec]
      | succ i =>
        have hrest : rest[i]? = some (.str str) := by simpa using hi
        have := process_list_str_records h i str hrest
        rw [herr] at this
        simp only [List.length_append, List.length_cons, List.length_nil] at this
        have hidx : s.errors.length + (i + 1) = s.errors.length + 1 + i := by omega
        rw [hidx]
        rw [this]
        rw [hs, hc]
        simp [List.take_succ_cons, code_after_cons]

/-- `pyIter` of the `errors` value agrees with its total counterpart. -/
theorem entries_spec_of_pyIter {r : PyValue} {l : List PyValue}
    (h : pyIter (dget r "errors" (.list [])) = .ok l) : entries_spec r = l := by
  unfold entries_spec
  cases hv : dget r "errors" (.list []) <;> rw [hv] at h <;>
    simp only [pyIter, Except.ok.injEq] at h <;> first
  | exact h
  | cases h

/-- Inversion of a successful `ErrorInfo.__init__`: the response is a
mapping, entry processing succeeded from the freshly initialized state on
the decoded entries, and every field except the formatted message comes
from the processed state. -/
theorem init_ok_inv {r : PyValue} {q : String} {info : ErrorInfo}
    (h : ErrorInfo.init r q = .ok info) :
    isDict r = true ∧
    ∃ st1, ErrorInfo.process_list
        { error_message := dget r "error_message" (.str "An error occurred")
          error_code := dget r "error_code" .none
          status_code := dget r "status_code" .none
          error_data := dget r "error_data" (.dict [])
          path := .none
          extensions := .none
          query_by_lines := py_split_newline q
          errors := []
          formatted_message := "" } (entries_spec r) = .ok st1 ∧
      info.error_message = st1.error_message ∧ info.error_code = st1.error_code ∧
      info.status_code = st1.status_code ∧ info.error_data = st1.error_data ∧
      info.path = st1.path ∧ info.extensions = st1.extensions ∧
      info.errors = st1.errors := by
  cases r with
  | dict fields =>
    simp only [ErrorInfo.init] at h
    refine ⟨rfl, ?_⟩
    cases hpr : ErrorInfo.process_errors
        { error_message := dget (PyValue.dict fields) "error_message" (.str "An error occurred")
          error_code := dget (PyValue.dict fields) "error_code" .none
          status_code := dget (PyValue.dict fields) "status_code" .none
          error_data := dget (PyValue.dict fields) "error_data" (.dict [])
          path := .none
          extensions := .none
          query_by_lines := py_split_newline q
          errors := []
          formatted_message := "" } (PyValue.dict fields) with
    | error e => rw [hpr] at h; cases h
    | ok st1 =>
      simp only [hpr] at h
      refine ⟨st1, ?_, ?_⟩
      · simp only [ErrorInfo.process_errors] at hpr
        cases hit : pyIter (dget (PyValue.dict fields) "errors" (.list [])) with
        | error e => rw [hit] at hpr; cases hpr
        | ok entries =>
          rw [hit] at hpr
          rw [entries_spec_of_pyIter hit]
          exact hpr
      · cases hfm : st1.format_errors with
        | error e => simp [hfm] at h
        | ok fm =>
          simp only [hfm] at h
          simp only [Except.ok.injEq] at h
          subst h
          exact ⟨rfl, rfl, rfl, rfl, rfl, rfl, rfl⟩
  | none => cases h
  | str s => cases h
  | int n => cases h
  | list xs => cases h

/-! ## No-raise lemmas for well-formed payloads -/

/-- A well-formed location entry resolves without raising, and the stored
column is an integer. -/
theorem create_location_wf {qls : List String} {l : PyValue}
    (h : wf_location l = true) :
    ∃ loc, ErrorInfo.create_location qls l = .ok loc ∧
      (match loc.column with | .int _ => true | _ => false) = true := by
  cases l with
  | dict fields =>
    simp only [wf_location, Bool.and_eq_true] at h
    obtain ⟨hline, hcol⟩ := h
    cases hl : dget (PyValue.dict fields) "line" .none with
    | int line =>
      cases hc : dget (PyValue.dict fields) "column" .none with
      | int col =>
        refine ⟨⟨.int line, .int col, ErrorInfo.get_line qls (line - 1),
          ErrorInfo.get_line qls line, ErrorInfo.get_line qls (line + 1)⟩, ?_, rfl⟩
        simp only [ErrorInfo.create_location, hl, hc]
      | none => rw [hc] at hcol; simp at hcol
      | str s => rw [hc] at hcol; simp at hcol
      | list xs => rw [hc] at hcol; simp at hcol
      | dict d => rw [hc] at hcol; simp at hcol
    | none => rw [hl] at hline; simp at hline
    | str s => rw [hl] at hline; simp at hline
    | list xs => rw [hl] at hline; simp at hline
    | dict d => rw [hl] at hline; simp at hline
  | none => simp [wf_location] at h
  | str s => simp [wf_location] at h
  | int n => simp [wf_location] at h
  | list xs => simp [wf_location] at h

/-- A list of well-formed locations resolves without raising, every stored
column being an integer. -/
theorem create_locations_wf {qls : List String} :
    ∀ {ls : List PyValue}, ls.all wf_location = true →
    ∃ locs, ErrorInfo.create_locations qls ls = .ok locs ∧
      locs.all (fun l => match l.column with | .int _ => true | _ => false) = true
  | [], _ => ⟨[], rfl, rfl⟩
  | l :: rest, h => by
    simp only [List.all_cons, Bool.and_eq_true] at h
    obtain ⟨loc, hloc, hcol⟩ := @create_location_wf qls l h.1
    obtain ⟨locs, hlocs, hcols⟩ := @create_locations_wf qls rest h.2
    refine ⟨loc :: locs, ?_, ?_⟩
    · simp only [ErrorInfo.create_locations, hloc, hlocs]
    · simp only [List.all_cons, hcol, hcols, Bool.and_self]

/-- A well-formed entry is processed without raising, preserving the
integer-column invariant on the stored records. -/
theorem process_entry_wf {s : ErrorInfo} {e : PyValue}
    (he : wf_entry e = true) (hs : s.errors.all rec_cols_ok = true) :
    ∃ s₂, s.process_entry e = .ok s₂ ∧ s₂.errors.all rec_cols_ok = true := by
  cases e with
  | str str =>
    refine ⟨_, rfl, ?_⟩
    simp only [ErrorInfo.add_error, List.all_append, hs, List.all_cons]
    simp [rec_cols_ok]
  | dict fields =>
    simp only [wf_entry, Bool.and_eq_true] at he
    obtain ⟨hlocs, hext⟩ := he
    cases hlv : dget (PyValue.dict fields) "locations" (.list []) with
    | none => rw [hlv] at hlocs; simp at hlocs
    | str s2 => rw [hlv] at hlocs; simp at hlocs
    | int n => rw [hlv] at hlocs; simp at hlocs
    | dict d => rw [hlv] at hlocs; simp at hlocs
    | list ls =>
    rw [hlv] at hlocs
    simp only at hlocs
    cases hev : dget (PyValue.dict fields) "extensions" (.dict []) with
    | none => rw [hev] at hext; simp at hext
    | str s2 => rw [hev] at hext; simp at hext
    | int n => rw [hev] at hext; simp at hext
    | list xs => rw [hev] at hext; simp at hext
    | dict exts =>
    obtain ⟨locs, hcl, hcols⟩ := @create_locations_wf s.query_by_lines ls hlocs
    simp only [ErrorInfo.process_entry, hlv, pyIter, hcl, hev]
    split_ifs <;> refine ⟨_, rfl, ?_⟩ <;>
      simp [ErrorInfo.add_error, rec_cols_ok, hs, hcols]
  | none => simp [wf_entry] at he
  | int n => simp [wf_entry] at he
  | list xs => simp [wf_entry] at he

/-- Processing a list of well-formed entries never raises. -/
theorem process_list_wf : ∀ {entries : List PyValue} {s : ErrorInfo},
    entries.all wf_entry = true → s.errors.all rec_cols_ok = true →
    ∃ s', s.process_list entries = .ok s' ∧ s'.errors.all rec_cols_ok = true
  | [], s, _, hs => ⟨s, rfl, hs⟩
  | e :: rest, s, he, hs => by
    simp only [List.all_cons, Bool.and_eq_true] at he
    obtain ⟨s₂, hpe, hs₂⟩ := process_entry_wf he.1 hs
    obtain ⟨s', hpl, hs'⟩ := process_list_wf he.2 hs₂
    exact ⟨s', by simp only [ErrorInfo.process_list, hpe, hpl], hs'⟩

/-- Formatting a location with an integer column never raises. -/
theorem format_location_wf {loc : ErrorLocation}
    (h : (match loc.column with | .int _ => true | _ => false) = true) :
    ∃ out, ErrorInfo.format_location loc = .ok out := by
  cases hc : loc.column with
  | int col => exact ⟨_, by simp only [ErrorInfo.format_location, hc]; rfl⟩
  | none => rw [hc] at h; simp at h
  | str s => rw [hc] at h; simp at h
  | list xs => rw [hc] at h; simp at h
  | dict d => rw [hc] at h; simp at h

/-- Formatting a list of integer-column locations never raises. -/
theorem format_locations_wf :
    ∀ {ls : List ErrorLocation},
    ls.all (fun l => match l.column with | .int _ => true | _ => false) = true →
    ∃ out, ErrorInfo.format_locations ls = .ok out
  | [], _ => ⟨"", rfl⟩
  | l :: rest, h => by
    simp only [List.all_cons, Bool.and_eq_true] at h
    obtain ⟨o1, h1⟩ := format_location_wf h.1
    obtain ⟨o2, h2⟩ := format_locations_wf h.2
    exact ⟨o1 ++ o2, by simp only [ErrorInfo.format_locations, h1, h2]⟩

/-- Formatting a record whose locations carry integer columns never
raises. -/
theorem format_error_details_wf {rec : ErrorRecord} (h : rec_cols_ok rec = true) :
    ∃ out, ErrorInfo.format_error_details rec = .ok out := by
  obtain ⟨o, ho⟩ := format_locations_wf h
  exact ⟨_, by simp only [ErrorInfo.format_error_details, ho]; rfl⟩

/-- Rendering the multi-record body never raises on integer-column
records. -/
theorem format_multiple_body_wf :
    ∀ {recs : List ErrorRecord}, recs.all rec_cols_ok = true →
    ∃ out, ErrorInfo.format_multiple_body recs = .ok out
  | [], _ => ⟨"", rfl⟩
  | rec :: rest, h => by
    simp only [List.all_cons, Bool.and_eq_true] at h
    obtain ⟨o1, h1⟩ := format_locations_wf h.1
    obtain ⟨o2, h2⟩ := format_multiple_body_wf h.2
    exact ⟨_, by simp only [ErrorInfo.format_multiple_body, h1, h2]; rfl⟩

/-- The whole formatting stage never raises on integer-column records. -/
theorem format_errors_wf {s : ErrorInfo} (h : s.errors.all rec_cols_ok = true) :
    ∃ out, s.format_errors = .ok out := by
  cases herr : s.errors with
  | nil => exact ⟨_, by simp only [ErrorInfo.format_errors, herr]; rfl⟩
  | cons rec rest =>
    rw [herr] at h
    simp only [List.all_cons, Bool.and_eq_true] at h
    cases rest with
    | nil =>
      obtain ⟨o, ho⟩ := format_error_details_wf h.1
      exact ⟨o, by simp only [ErrorInfo.format_errors, herr, ho]⟩
    | cons rec2 rest2 =>
      have hall : (rec :: rec2 :: rest2).all rec_cols_ok = true := by
        simp only [List.all_cons, Bool.and_eq_true] at h ⊢
        exact ⟨h.1, h.2⟩
      obtain ⟨o, ho⟩ := format_multiple_body_wf hall
      exact ⟨"\nMultiple errors occurred:\n" ++ o,
        by simp only [ErrorInfo.format_errors, herr, ErrorInfo.format_multiple_errors, ho]⟩

/-- Decidable equality for `Except` results, used to settle concrete runs. -/
instance {α β : Type} [DecidableEq α] [DecidableEq β] : DecidableEq (Except α β) := by
  intro a b
  cases a <;> cases b <;> first
  | (rename_i x y
     exact match decEq x y with
     | .isTrue h => .isTrue (by rw [h])
     | .isFalse h => .isFalse (by intro he; cases he; exact h rfl))
  | exact .isFalse (by intro h; cases h)

/-! ## Claims -/

/-- C1 (counterexample): the claim says the primary code is the code of the
first entry carrying an `extensions.code`, with the top-level `error_code`
used only as a fallback.  On the response
`{'error_code': 'TopCode', 'errors': [{'message': 'x', 'extensions':
{'code': 'RateLimitExceeded'}}]}` the only entry carries the code
`RateLimitExceeded`, yet the aggregate's primary code is the top-level
`TopCode`: in the source the top-level code, when truthy, takes precedence
over every per-record code. -/
theorem c1_counterexample :
    (ErrorInfo.init (.dict [("error_code", .str "TopCode"),
        ("errors", .list [.dict [("message", .str "x"),
          ("extensions", .dict [("code", .str "RateLimitExceeded")])]])]) "q").map
      (fun i => i.error_code) = .ok (.str "TopCode")
    ∧ PyValue.str "TopCode" ≠ PyValue.str "RateLimitExceeded" := by
  refine ⟨?_, by decide⟩
  decide

/-- C1 (amended): the aggregate's primary error code is the top-level
`error_code` whenever that is truthy; only when the top-level code is
absent or falsy does it fall back to the code of the first errors entry
carrying a truthy `extensions.code`. -/
theorem c1_primary_code (r : PyValue) (q : String) (info : ErrorInfo)
    (h : ErrorInfo.init r q = .ok info) :
    (truthy (dget r "error_code" .none) = true →
      info.error_code = dget r "error_code" .none) ∧
    (truthy (dget r "error_code" .none) = false →
      ∀ c, first_code_spec (entries_spec r) = some c → info.error_code = c) := by
  obtain ⟨-, st1, hpl, -, hcode, -, -, -, -, -⟩ := init_ok_inv h
  obtain ⟨-, -, -, hfold, -⟩ := process_list_char hpl
  constructor
  · intro ht
    rw [hcode, hfold]
    exact code_after_truthy ht
  · intro hf c hfirst
    rw [hcode, hfold]
    exact code_after_of_first hf hfirst

/-- C1 (witness): with no top-level code, the first (only) entry's
`RateLimitExceeded` becomes the primary code. -/
theorem c1_primary_code_witness :
    ErrorInfo.init (.dict [("errors", .list [.dict [("message", .str "x"),
        ("extensions", .dict [("code", .str "RateLimitExceeded")])]])]) "q"
      = .ok ⟨.str "An error occurred", .str "RateLimitExceeded", .none, .dict [],
             .list [], .dict [("code", .str "RateLimitExceeded")], ["q"],
             [⟨.str "x", [], .str "RateLimitExceeded", .none, .dict []⟩],
             "x\nError Code: RateLimitExceeded\n"⟩
    ∧ (⟨.str "An error occurred", .str "RateLimitExceeded", .none, .dict [],
          .list [], .dict [("code", .str "RateLimitExceeded")], ["q"],
          [⟨.str "x", [], .str "RateLimitExceeded", .none, .dict []⟩],
          "x\nError Code: RateLimitExceeded\n"⟩ : ErrorInfo).error_code
        = .str "RateLimitExceeded" :=
  ⟨by decide,
   (c1_primary_code (.dict [("errors", .list [.dict [("message", .str "x"),
        ("extensions", .dict [("code", .str "RateLimitExceeded")])]])]) "q"
      ⟨.str "An error occurred", .str "RateLimitExceeded", .none, .dict [],
       .list [], .dict [("code", .str "RateLimitExceeded")], ["q"],
       [⟨.str "x", [], .str "RateLimitExceeded", .none, .dict []⟩],
       "x\nError Code: RateLimitExceeded\n"⟩ (by decide)).2 rfl (.str "RateLimitExceeded")
      (by decide)⟩

/-- C6 (counterexample): the claim says the fallback "An error occurred"
appears only when a message is absent from both the top level and every
record.  On `{'errors': [{'message': 'boom'}]}` the record carries the
message `boom`, yet the aggregate's top-level message is the fallback: the
source defaults on the top-level key alone. -/
theorem c6_counterexample :
    (ErrorInfo.init (.dict [("errors", .list [.dict [("message", .str "boom")]])])
        "q").map (fun i => (i.error_message, i.errors.map ErrorRecord.message))
      = .ok (.str "An error occurred", [.str "boom"])
    ∧ PyValue.str "boom" ≠ PyValue.str "" := by
  refine ⟨?_, by decide⟩
  decide

/-- C6 (amended): the aggregate's top-level message is
`response.get('error_message', 'An error occurred')`: it equals the
fallback exactly when the response lacks the `error_message` key,
regardless of any per-record messages. -/
theorem c6_default_message (r : PyValue) (q : String) (info : ErrorInfo)
    (h : ErrorInfo.init r q = .ok info) :
    info.error_message = dget r "error_message" (.str "An error occurred") ∧
    (hasKey r "error_message" = false →
      info.error_message = .str "An error occurred") := by
  obtain ⟨hdict, st1, hpl, hmsg, -, -, -, -, -, -⟩ := init_ok_inv h
  obtain ⟨pm, -⟩ := process_list_char hpl
  have h1 : info.error_message = dget r "error_message" (.str "An error occurred") := by
    rw [hmsg, pm]
  refine ⟨h1, fun hk => ?_⟩
  rw [h1]
  cases r with
  | dict fields =>
    cases hl : fields.lookup "error_message" with
    | none => simp [dget, hl]
    | some v => simp [hasKey, hl] at hk
  | none => simp [isDict] at hdict
  | str s => simp [isDict] at hdict
  | int n => simp [isDict] at hdict
  | list xs => simp [isDict] at hdict

/-- C6 (witness): the top-level message is taken verbatim when present. -/
theorem c6_default_message_witness :
    ErrorInfo.init (.dict [("error_message", .str "Boom")]) "q"
      = .ok ⟨.str "Boom", .none, .none, .dict [], .none, .none, ["q"], [], "Boom\n"⟩
    ∧ (⟨.str "Boom", .none, .none, .dict [], .none, .none, ["q"], [],
          "Boom\n"⟩ : ErrorInfo).error_message = .str "Boom" :=
  ⟨by decide,
   (c6_default_message (.dict [("error_message", .str "Boom")]) "q"
      ⟨.str "Boom", .none, .none, .dict [], .none, .none, ["q"], [], "Boom\n"⟩
      (by decide)).1⟩

/-- C8 (counterexample): the claim says a plain-string entry is recorded
with no error code and no status code.  On `{'error_code': 'X',
'status_code': 200, 'errors': ['boom']}` the string entry's record carries
the top-level code `X` and status `200`: the source passes the aggregate's
current `error_code`/`status_code` into `add_error` for string entries. -/
theorem c8_counterexample :
    (ErrorInfo.init (.dict [("error_code", .str "X"), ("status_code", .int 200),
        ("errors", .list [.str "boom"])]) "q").map (fun i => i.errors)
      = .ok [⟨.str "boom", [], .str "X", .int 200, .none⟩]
    ∧ PyValue.str "X" ≠ PyValue.none := by
  refine ⟨?_, by decide⟩
  decide

/-- C8 (amended): a plain-string entry at position `i` of the errors array
is recorded as a bare message with no locations and no error data, but
carrying the aggregate's error-code state after the earlier entries (the
top-level `error_code` unless a preceding structured entry supplied one)
and the top-level `status_code`. -/
theorem c8_string_entries (r : PyValue) (q : String) (info : ErrorInfo)
    (h : ErrorInfo.init r q = .ok info) (i : Nat) (str : String)
    (hi : (entries_spec r)[i]? = some (.str str)) :
    info.errors[i]? = some ⟨.str str, [],
      code_after_spec (dget r "error_code" .none) ((entries_spec r).take i),
      dget r "status_code" .none, .none⟩ := by
  obtain ⟨-, st1, hpl, -, -, -, -, -, -, herrs⟩ := init_ok_inv h
  have hrec := process_list_str_records hpl i str hi
  rw [herrs]
  simpa using hrec

/-- C8 (witness): with no top-level code or status, a lone string entry is
recorded with `None` code and status. -/
theorem c8_string_entries_witness :
    ErrorInfo.init (.dict [("errors", .list [.str "a"])]) "q"
      = .ok ⟨.str "An error occurred", .none, .none, .dict [], .none, .none, ["q"],
             [⟨.str "a", [], .none, .none, .none⟩], "a\n"⟩
    ∧ (⟨.str "An error occurred", .none, .none, .dict [], .none, .none, ["q"],
          [⟨.str "a", [], .none, .none, .none⟩], "a\n"⟩ : ErrorInfo).errors[0]?
        = some ⟨.str "a", [], .none, .none, .none⟩ :=
  ⟨by decide,
   c8_string_entries (.dict [("errors", .list [.str "a"])]) "q"
     ⟨.str "An error occurred", .none, .none, .dict [], .none, .none, ["q"],
      [⟨.str "a", [], .none, .none, .none⟩], "a\n"⟩ (by decide) 0 "a" (by decide)⟩

/-- `get_line` yields a display exactly for in-range line numbers. -/
theorem get_line_ne_iff (lines : List String) (n : Int) :
    ErrorInfo.get_line lines n ≠ "" ↔ (1 ≤ n ∧ n ≤ lines.length) := by
  unfold ErrorInfo.get_line
  split_ifs with hcond
  · constructor
    · intro _; exact hcond
    · intro _ hcontra
      have hlen := congrArg String.length hcontra
      simp only [String.length_append] at hlen
      have h2 : (") " : String).length = 2 := rfl
      have h0 : ("" : String).length = 0 := rfl
      omega
  · simp only [ne_eq, not_true_eq_false, iff_false]
    simpa using hcond

/-- C7 (counterexample): the claim says the next-line display is present
iff `line < total`.  For `line = -1` against three query lines, `-1 < 3`
yet the next-line display is absent (`get_line 0` is empty): the lower
bound `0 ≤ line` is missing from the claim. -/
theorem c7_counterexample :
    (ErrorInfo.create_location ["a", "b", "c"]
        (.dict [("line", .int (-1)), ("column", .int 1)])).map ErrorLocation.next_line
      = .ok ""
    ∧ ((-1 : Int) < ((["a", "b", "c"] : List String).length : Int)) := by
  refine ⟨?_, by decide⟩
  decide

/-- C7 (amended): a location built from an integer `(line, column)` pair
never raises; the error-line display is present iff `1 ≤ line ≤ total`,
the previous-line display iff `line > 1 ∧ line - 1 ≤ total`, the
next-line display iff `0 ≤ line ∧ line < total`, and every present
display has the form `"{line_number}) {line_text}"`. -/
theorem c7_location_displays (line column : Int) (lines : List String) :
    ErrorInfo.create_location lines (.dict [("line", .int line), ("column", .int column)])
      = .ok ⟨.int line, .int column, ErrorInfo.get_line lines (line - 1),
             ErrorInfo.get_line lines line, ErrorInfo.get_line lines (line + 1)⟩
    ∧ (ErrorInfo.get_line lines line ≠ "" ↔ 1 ≤ line ∧ line ≤ lines.length)
    ∧ (ErrorInfo.get_line lines (line - 1) ≠ "" ↔ 1 < line ∧ line - 1 ≤ lines.length)
    ∧ (ErrorInfo.get_line lines (line + 1) ≠ "" ↔ 0 ≤ line ∧ line < lines.length)
    ∧ (∀ n : Int, 1 ≤ n → n ≤ lines.length →
        ErrorInfo.get_line lines n = toString n ++ ") " ++ lines.getD (n.toNat - 1) "") := by
  refine ⟨rfl, get_line_ne_iff lines line, ?_, ?_, ?_⟩
  · rw [get_line_ne_iff]
    omega
  · rw [get_line_ne_iff]
    omega
  · intro n h1 h2
    unfold ErrorInfo.get_line
    rw [if_pos ⟨h1, h2⟩]

/-- C7 (witness): line 2 of a three-line query shows all three context
lines in the `"{n}) {text}"` form. -/
theorem c7_location_displays_witness :
    ErrorInfo.create_location ["a", "b", "c"] (.dict [("line", .int 2), ("column", .int 1)])
      = .ok ⟨.int 2, .int 1, "1) a", "2) b", "3) c"⟩ := by
  rw [(c7_location_displays 2 1 ["a", "b", "c"]).1]
  decide

/-- C5 (counterexample): the claim says the raised exception's
`error_data`/`extensions`/`path` equal the values of the record that
supplied the primary code.  On two entries both carrying the code `B`,
the primary code is supplied by the first entry (path `['p']`), yet the
raised exception carries the second entry's path `['q']` and extensions:
equal-coded later records overwrite the structured fields. -/
theorem c5_counterexample :
    throw_on_error (.dict [("errors", .list [
        .dict [("message", .str "a"),
               ("extensions", .dict [("code", .str "B")]), ("path", .list [.str "p"])],
        .dict [("message", .str "b"),
               ("extensions", .dict [("code", .str "B")]), ("path", .list [.str "q"])]])]) "x"
      = .raised (leaf_init .MondayAPIError (some (.str
          "\nMultiple errors occurred:\n\na\n - Error Code: B\n - Status Code: None\n\nb\n - Error Code: B\n - Status Code: None\n"))
          (.str "B") .none (.dict []) (.dict [("code", .str "B")]) (.list [.str "q"]))
    ∧ first_code_spec (entries_spec (.dict [("errors", .list [
        .dict [("message", .str "a"),
               ("extensions", .dict [("code", .str "B")]), ("path", .list [.str "p"])],
        .dict [("message", .str "b"),
               ("extensions", .dict [("code", .str "B")]), ("path", .list [.str "q"])]])]))
        = some (.str "B")
    ∧ entry_path_spec (.dict [("message", .str "a"),
        ("extensions", .dict [("code", .str "B")]), ("path", .list [.str "p"])])
        = .list [.str "p"]
    ∧ PyValue.list [.str "q"] ≠ PyValue.list [.str "p"] := by
  have hinit : ErrorInfo.init (.dict [("errors", .list [
      .dict [("message", .str "a"),
             ("extensions", .dict [("code", .str "B")]), ("path", .list [.str "p"])],
      .dict [("message", .str "b"),
             ("extensions", .dict [("code", .str "B")]), ("path", .list [.str "q"])]])]) "x"
      = .ok ⟨.str "An error occurred", .str "B", .none, .dict [], .list [.str "q"],
             .dict [("code", .str "B")], ["x"],
             [⟨.str "a", [], .str "B", .none, .dict []⟩,
              ⟨.str "b", [], .str "B", .none, .dict []⟩],
             "\nMultiple errors occurred:\n\na\n - Error Code: B\n - Status Code: None\n\nb\n - Error Code: B\n - Status Code: None\n"⟩ := by
    decide
  refine ⟨?_, by decide, by decide, by decide⟩
  unfold throw_on_error
  rw [if_pos (by decide)]
  simp only [hinit]
  rw [if_pos (by decide)]
  decide

/-- C5 (amended): the aggregate's (and hence the raised exception's)
`extensions`, `path` and `error_data` equal the values attached to the
*last* errors entry whose `extensions.code` equals the primary code —
ties between records sharing the primary code are resolved last-wins, not
in favour of the record that supplied the code. -/
theorem c5_structured_fields (r : PyValue) (q : String) (info : ErrorInfo) (e : PyValue)
    (h : ErrorInfo.init r q = .ok info)
    (hlast : last_match_spec (entries_spec r) info.error_code = some e) :
    info.extensions = entry_ext_spec e ∧ info.path = entry_path_spec e ∧
    info.error_data = entry_data_spec e := by
  obtain ⟨-, st1, hpl, -, hcode, -, hdata, hpath, hext, -⟩ := init_ok_inv h
  rw [hcode] at hlast
  cases process_list_fields hpl with
  | inl hx =>
    obtain ⟨x, hx1, hx2, hx3, hx4⟩ := hx
    rw [hx1] at hlast
    injection hlast with he
    subst he
    exact ⟨hext.trans hx2, hpath.trans hx3, hdata.trans hx4⟩
  | inr hn =>
    rw [hn.1] at hlast
    cases hlast

/-- C5 (witness): a lone coded entry is its own last match, and the
aggregate's path is that entry's path. -/
theorem c5_structured_fields_witness :
    ErrorInfo.init (.dict [("errors", .list [
        .dict [("message", .str "a"), ("extensions", .dict [("code", .str "A")]),
               ("path", .list [.str "p"])]])]) "x"
      = .ok ⟨.str "An error occurred", .str "A", .none, .dict [], .list [.str "p"],
             .dict [("code", .str "A")], ["x"],
             [⟨.str "a", [], .str "A", .none, .dict []⟩], "a\nError Code: A\n"⟩
    ∧ (⟨.str "An error occurred", .str "A", .none, .dict [], .list [.str "p"],
          .dict [("code", .str "A")], ["x"],
          [⟨.str "a", [], .str "A", .none, .dict []⟩], "a\nError Code: A\n"⟩ : ErrorInfo).path
        = entry_path_spec (.dict [("message", .str "a"),
            ("extensions", .dict [("code", .str "A")]), ("path", .list [.str "p"])]) :=
  ⟨by decide,
   (c5_structured_fields (.dict [("errors", .list [
        .dict [("message", .str "a"), ("extensions", .dict [("code", .str "A")]),
               ("path", .list [.str "p"])]])]) "x"
      ⟨.str "An error occurred", .str "A", .none, .dict [], .list [.str "p"],
       .dict [("code", .str "A")], ["x"],
       [⟨.str "a", [], .str "A", .none, .dict []⟩], "a\nError Code: A\n"⟩
      (.dict [("message", .str "a"), ("extensions", .dict [("code", .str "A")]),
              ("path", .list [.str "p"])])
      (by decide) (by decide)).2.1⟩

/-- C3 (counterexample): the claim says a location entry missing its
`line` degrades by omission and construction never raises.  On
`{'errors': [{'message': 'm', 'locations': [{'column': 2}]}]}` the
aggregator raises a TypeError: `create_location` computes
`line - 1` on the missing (None) line. -/
theorem c3_counterexample :
    ErrorInfo.init (.dict [("errors", .list [.dict [("message", .str "m"),
        ("locations", .list [.dict [("column", .int 2)]])]])]) "q"
      = .error .typeError := by
  decide

/-- C3 (amended): constructing the aggregate never raises provided every
errors entry is a plain string or a mapping whose `locations` (when
present) is a list of mappings each carrying an integer `line` and
`column`, and whose `extensions` (when present) is a mapping; entries
missing `message`, `locations`, `extensions` or `path` degrade by
omission.  A location entry missing `line` or `column`, a non-mapping
`extensions`, or a non-string non-mapping entry raises instead of
degrading. -/
theorem c3_no_raise (r : PyValue) (q : String) (h : wf_response r = true) :
    (ErrorInfo.init r q).isOk = true := by
  cases r with
  | dict fields =>
    simp only [wf_response] at h
    cases hv : dget (PyValue.dict fields) "errors" (.list []) with
    | list es =>
      rw [hv] at h
      simp only at h
      obtain ⟨s', hpl, hcols⟩ := @process_list_wf es
        { error_message := dget (PyValue.dict fields) "error_message" (.str "An error occurred")
          error_code := dget (PyValue.dict fields) "error_code" .none
          status_code := dget (PyValue.dict fields) "status_code" .none
          error_data := dget (PyValue.dict fields) "error_data" (.dict [])
          path := .none
          extensions := .none
          query_by_lines := py_split_newline q
          errors := []
          formatted_message := "" } h rfl
      obtain ⟨fm, hfm⟩ := format_errors_wf hcols
      simp only [ErrorInfo.init, ErrorInfo.process_errors, hv, pyIter, hpl, hfm]
      rfl
    | none => rw [hv] at h; simp at h
    | str s2 => rw [hv] at h; simp at h
    | int n => rw [hv] at h; simp at h
    | dict d => rw [hv] at h; simp at h
  | none => simp [wf_response] at h
  | str s2 => simp [wf_response] at h
  | int n => simp [wf_response] at h
  | list xs => simp [wf_response] at h

/-- C3 (witness): a payload mixing a bare string entry and a structured
entry with a complete location aggregates without raising. -/
theorem c3_no_raise_witness :
    wf_response (.dict [("errors", .list [.str "plain",
        .dict [("message", .str "m"),
               ("locations", .list [.dict [("line", .int 1), ("column", .int 2)]])]])]) = true
    ∧ (ErrorInfo.init (.dict [("errors", .list [.str "plain",
        .dict [("message", .str "m"),
               ("locations", .list [.dict [("line", .int 1), ("column", .int 2)]])]])])
        "line one").isOk = true :=
  ⟨by decide,
   c3_no_raise (.dict [("errors", .list [.str "plain",
      .dict [("message", .str "m"),
             ("locations", .list [.dict [("line", .int 1), ("column", .int 2)]])]])])
     "line one" (by decide)⟩

/-- C4: a response that is not a mapping, or a mapping containing none of
`errors`/`error_message`/`error_code`, raises nothing — the transport
returns the raw response unchanged.  (The current transport-layer
`_throw_on_error` is modelled from the spec; src/ holds a superseded
variant, which satisfies the same property.) -/
theorem c4_no_error_sentinel (r : PyValue) (q : String)
    (h : isDict r = false ∨ (hasKey r "errors" = false ∧ hasKey r "error_message" = false ∧
          hasKey r "error_code" = false)) :
    throw_on_error r q = .ok ∧ send_result r q = some r := by
  have hcond : (isDict r && (hasKey r "errors" || hasKey r "error_message"
      || hasKey r "error_code")) = false := by
    rcases h with h1 | ⟨h1, h2, h3⟩
    · simp [h1]
    · simp [h1, h2, h3]
  have hok : throw_on_error r q = .ok := by
    unfold throw_on_error
    rw [if_neg (by simp [hcond])]
  exact ⟨hok, by simp [send_result, hok]⟩

/-- C4 (witness): a data-only response passes through untouched. -/
theorem c4_no_error_sentinel_witness :
    throw_on_error (.dict [("data", .str "x")]) "q" = .ok
    ∧ send_result (.dict [("data", .str "x")]) "q" = some (.dict [("data", .str "x")]) :=
  c4_no_error_sentinel (.dict [("data", .str "x")]) "q" (Or.inr ⟨rfl, rfl, rfl⟩)

/-- C2: whenever the aggregate has at least one record or a truthy
top-level message, the transport raises exactly one exception whose kind
is the dispatch table's entry for the primary code, constructed with the
formatted message, primary code, primary status code, error_data,
extensions and path; every code in the table dispatches to its documented
non-generic kind, while unrecognized or absent codes dispatch to the
generic base kind.  (The current transport-layer `_throw_on_error` is
modelled from the spec and the repository's tests; src/ holds a
superseded variant.) -/
theorem c2_transport_raise (r : PyValue) (q : String) (info : ErrorInfo)
    (hkeys : (isDict r && (hasKey r "errors" || hasKey r "error_message"
        || hasKey r "error_code")) = true)
    (hinit : ErrorInfo.init r q = .ok info)
    (hfail : (!info.errors.isEmpty || truthy info.error_message) = true) :
    throw_on_error r q = .raised (leaf_init (error_codes_get info.error_code)
        (some (.str info.formatted_message)) info.error_code info.status_code
        info.error_data info.extensions info.path)
    ∧ (∀ p ∈ ERROR_CODES, error_codes_get (.str p.1) = p.2 ∧ p.2 ≠ ExcKind.MondayAPIError)
    ∧ (∀ s : String, ERROR_CODES.lookup s = Option.none →
        error_codes_get (.str s) = ExcKind.MondayAPIError)
    ∧ error_codes_get .none = ExcKind.MondayAPIError := by
  refine ⟨?_, by decide, ?_, rfl⟩
  · unfold throw_on_error
    rw [if_pos hkeys]
    simp only [hinit]
    rw [if_pos hfail]
  · intro s hs
    simp [error_codes_get, hs]

/-- C2 (witness): a flat `RateLimitExceeded` failure raises the
rate-limit kind carrying the aggregate's fields, and an unknown code
dispatches to the base kind. -/
theorem c2_transport_raise_witness :
    throw_on_error (.dict [("error_message", .str "Rate limit exceeded"),
        ("error_code", .str "RateLimitExceeded")]) "query"
      = .raised (leaf_init .RateLimitExceededError
          (some (.str "Rate limit exceeded\nError Code: RateLimitExceeded\n"))
          (.str "RateLimitExceeded") .none (.dict []) .none .none)
    ∧ error_codes_get (.str "NotARealCode") = ExcKind.MondayAPIError := by
  have h := c2_transport_raise (.dict [("error_message", .str "Rate limit exceeded"),
      ("error_code", .str "RateLimitExceeded")]) "query"
      ⟨.str "Rate limit exceeded", .str "RateLimitExceeded", .none, .dict [], .none, .none,
       ["query"], [], "Rate limit exceeded\nError Code: RateLimitExceeded\n"⟩
      (by decide) (by decide) (by decide)
  exact ⟨h.1, h.2.2.1 "NotARealCode" (by decide)⟩

/-- C9: `ComplexityError.__init__` parses the two integers captured by the
fixed pattern `budget remaining (\d+) out of \d+ reset in (\d+) seconds`
out of the message when `re.search` matches, leaves both derived fields
`None` when it does not, and always constructs the exception; concretely,
the example message yields 250 and 55, and a non-matching message yields
neither. -/
theorem c9_complexity_parsing :
    (∀ (message : String) (error_code status_code error_data extensions path : PyValue),
      (∀ a b, re_search message.data = some (a, b) →
        (ComplexityError.init message error_code status_code error_data extensions
          path).remaining_complexity = some a ∧
        (ComplexityError.init message error_code status_code error_data extensions
          path).reset_in = some b) ∧
      (re_search message.data = Option.none →
        (ComplexityError.init message error_code status_code error_data extensions
          path).remaining_complexity = Option.none ∧
        (ComplexityError.init message error_code status_code error_data extensions
          path).reset_in = Option.none) ∧
      (ComplexityError.init message error_code status_code error_data extensions
        path).base.message = .str message)
    ∧ (ComplexityError.init
        "Complexity budget exhausted, query cost 50000 budget remaining 250 out of 1000000 reset in 55 seconds"
        .none .none .none .none .none).remaining_complexity = some 250
    ∧ (ComplexityError.init
        "Complexity budget exhausted, query cost 50000 budget remaining 250 out of 1000000 reset in 55 seconds"
        .none .none .none .none .none).reset_in = some 55
    ∧ (ComplexityError.init "Complexity limit exceeded"
        .none .none .none .none .none).remaining_complexity = Option.none
    ∧ (ComplexityError.init "Complexity limit exceeded"
        .none .none .none .none .none).reset_in = Option.none := by
  refine ⟨?_, by decide, by decide, by decide, by decide⟩
  intro message ec sc ed ex p
  refine ⟨?_, ?_, rfl⟩
  · intro a b hs
    simp [ComplexityError.init, hs]
  · intro hs
    simp [ComplexityError.init, hs]

/-- C9 (witness): the documented example message yields 250 and 55. -/
theorem c9_complexity_parsing_witness :
    (ComplexityError.init
      "Complexity budget exhausted, query cost 50000 budget remaining 250 out of 1000000 reset in 55 seconds"
      .none .none .none .none .none).remaining_complexity = some 250 :=
  c9_complexity_parsing.2.1

/-- The `x if x is not None else {}` normalization never yields `None`. -/
theorem none_default_ne (v : PyValue) :
    (if v = .none then PyValue.dict [] else v) ≠ .none := by
  split_ifs with h
  · intro hc; cases hc
  · exact h

/-- The `x if x is not None else {}` normalization of `None` is `{}`. -/
theorem none_default_eq {v : PyValue} (h : v = .none) :
    (if v = .none then PyValue.dict [] else v) = .dict [] := by
  rw [if_pos h]

/-- C10: for every kind of the hierarchy and every choice of construction
arguments, the constructed exception's `error_data`, `extensions` and
`path` are never `None`: an omitted or `None` argument becomes an empty
mapping, while `error_code` and `status_code` are stored as given (and so
remain `None` when omitted). -/
theorem c10_never_none (kind : ExcKind) (message : Option PyValue)
    (error_code status_code error_data extensions path : PyValue) :
    (leaf_init kind message error_code status_code error_data extensions path).error_data
        ≠ .none
    ∧ (leaf_init kind message error_code status_code error_data extensions path).extensions
        ≠ .none
    ∧ (leaf_init kind message error_code status_code error_data extensions path).path
        ≠ .none
    ∧ (error_data = .none →
        (leaf_init kind message error_code status_code error_data extensions path).error_data
          = .dict [])
    ∧ (extensions = .none →
        (leaf_init kind message error_code status_code error_data extensions path).extensions
          = .dict [])
    ∧ (path = .none →
        (leaf_init kind message error_code status_code error_data extensions path).path
          = .dict [])
    ∧ (leaf_init kind message error_code status_code error_data extensions path).error_code
        = error_code
    ∧ (leaf_init kind message error_code status_code error_data extensions path).status_code
        = status_code := by
  cases kind <;>
    refine ⟨?_, ?_, ?_, ?_, ?_, ?_, rfl, rfl⟩ <;>
      first
      | exact none_default_ne _
      | exact none_default_ne PyValue.none
      | exact fun hh => none_default_eq hh
      | exact fun hh => none_default_eq rfl

/-- C10 (witness): omitted structured arguments become empty mappings, a
leaf without `extensions`/`path` parameters included. -/
theorem c10_never_none_witness :
    (leaf_init .InternalServerError (some (.str "m")) .none .none .none .none
      .none).error_data = .dict []
    ∧ (leaf_init .DeleteLastGroupError Option.none (.str "c") .none .none (.str "E")
        (.str "P")).extensions ≠ .none :=
  ⟨(c10_never_none .InternalServerError (some (.str "m")) .none .none .none .none
      .none).2.2.2.1 rfl,
   (c10_never_none .DeleteLastGroupError Option.none (.str "c") .none .none (.str "E")
      (.str "P")).2.1⟩

end MondayAsync
